import Mathlib

/-!
Shallow embedding of the EasyOpenGL vertex-array wrapper
(header `src/inc/GLA/vertexArray.h` and its implementation file) together
with proofs about `VertexArray::setAttributes`, the pure helpers
`toGLenum`, `typeToBytes`, `validateTypeInterpretation`, and the move
operations of `VertexArray`.

Modelling conventions:
* C++ `int` values are modelled as `Int`.  The implicit conversion of a
  signed `int` value to the unsigned 64-bit `size_t` that happens in the
  debug integrity pass is modelled by reduction modulo 2^64 (`uiCast`).
* Native GL calls are recorded in an explicit trace.  The value written by
  `glGetIntegerv(GL_MAX_VERTEX_ATTRIBS, ...)` is a parameter of the model
  (it describes the environment, not the wrapper).
* A C++ `throw` is modelled by an `error` field holding `some e`; the
  `enabled` field of the result is the `_enabledVertexAttribs` list at the
  moment of the throw, and `trace` lists the native calls issued so far.
-/

set_option autoImplicit false

namespace Gla

/-- The scalar storage types (`enum class VertexAttribType`), in declaration
order, so the underlying C++ values are 0..9. -/
inductive VertexAttribType where
  | Byte
  | UnsignedByte
  | Short
  | UnsignedShort
  | Int
  | UnsignedInt
  | HalfFloat
  | Float
  | Double
  | Fixed
  deriving DecidableEq, Fintype, Repr

/-- The read interpretation (`enum class VertexAttribInterp`). -/
inductive VertexAttribInterp where
  | Float
  | Integer
  deriving DecidableEq, Fintype, Repr

/-- Underlying C++ enum value of each `VertexAttribType` (declaration order). -/
def VertexAttribType.val : VertexAttribType → ℤ
  | .Byte => 0
  | .UnsignedByte => 1
  | .Short => 2
  | .UnsignedShort => 3
  | .Int => 4
  | .UnsignedInt => 5
  | .HalfFloat => 6
  | .Float => 7
  | .Double => 8
  | .Fixed => 9

/-- The failures the wrapper can raise, one constructor per `throw` site.
Payloads record the data interpolated into the C++ message text. -/
inductive GlaError where
  | strideNotPositive
  | maxVertexAttribsQueryFailed
  | tooManyVertexAttribs (requested : Nat) (maxAllowed : Int)
  | attribsExceedStride
  | attribsOverlap (i j : Nat)
  | negativeOffset
  | indexOverMax
  | badNumComponents
  | incompatibleTypeInterp (msg : String)
  | invalidVertexAttribType
  deriving DecidableEq, Repr

/-- Which modelled failure corresponds to a C++ `std::invalid_argument`
throw (the others are `std::runtime_error`). -/
def GlaError.isInvalidArgument : GlaError → Bool
  | .maxVertexAttribsQueryFailed => false
  | .tooManyVertexAttribs _ _ => false
  | _ => true

/-- `toGLenum` from the implementation file: GL constant of each type. -/
def toGLenum : VertexAttribType → Nat
  | .Byte => 0x1400
  | .UnsignedByte => 0x1401
  | .Short => 0x1402
  | .UnsignedShort => 0x1403
  | .Int => 0x1404
  | .UnsignedInt => 0x1405
  | .HalfFloat => 0x140B
  | .Float => 0x1406
  | .Double => 0x140A
  | .Fixed => 0x140C

/-- `typeToBytes` from the implementation file: byte width of each type. -/
def typeToBytes : VertexAttribType → Int
  | .Byte => 1
  | .UnsignedByte => 1
  | .Short => 2
  | .UnsignedShort => 2
  | .Int => 4
  | .UnsignedInt => 4
  | .HalfFloat => 2
  | .Float => 4
  | .Double => 8
  | .Fixed => 4

/-- `toGLenum` seen on the raw underlying integer of the enum: the C++
switch handles the values 0..9 and falls through to
`throw std::invalid_argument` for every other value. -/
def toGLenumRaw (v : Int) : Except GlaError Nat :=
  if v = 0 then .ok 0x1400
  else if v = 1 then .ok 0x1401
  else if v = 2 then .ok 0x1402
  else if v = 3 then .ok 0x1403
  else if v = 4 then .ok 0x1404
  else if v = 5 then .ok 0x1405
  else if v = 6 then .ok 0x140B
  else if v = 7 then .ok 0x1406
  else if v = 8 then .ok 0x140A
  else if v = 9 then .ok 0x140C
  else .error .invalidVertexAttribType

/-- `typeToBytes` seen on the raw underlying integer of the enum: values
0..9 map to the table, everything else throws `std::invalid_argument`. -/
def typeToBytesRaw (v : Int) : Except GlaError Int :=
  if v = 0 then .ok 1
  else if v = 1 then .ok 1
  else if v = 2 then .ok 2
  else if v = 3 then .ok 2
  else if v = 4 then .ok 4
  else if v = 5 then .ok 4
  else if v = 6 then .ok 2
  else if v = 7 then .ok 4
  else if v = 8 then .ok 8
  else if v = 9 then .ok 4
  else .error .invalidVertexAttribType

/-- `validateTypeInterpretation` from the implementation file.  The C++
function returns a `bool` and writes a reason into an out-parameter in the
failing cases; this is modelled as `none` for valid (returns `true`, error
string untouched) and `some msg` for invalid (returns `false`, error string
set).  The source messages use the contraction of "cannot"; it is spelled
out here. -/
def validateTypeInterpretation (type : VertexAttribType)
    (interp : VertexAttribInterp) : Option String :=
  match interp with
  | .Integer =>
    match type with
    | .HalfFloat => some "Cannot use type HalfFloat with Integer interpretation!"
    | .Float => some "Cannot use type Float with Integer interpretation!"
    | .Double => some "Cannot use type Double with Integer interpretation!"
    | .Fixed => some "Cannot use type Fixed with Integer interpretation!"
    | _ => none
  | .Float => none

/-- `struct VertexAttribute` from the header.  `index` is `unsigned int`
(modelled as `Nat`), `numComponents` and `offset` are `int`. -/
structure VertexAttribute where
  index : Nat
  numComponents : Int
  type : VertexAttribType
  interp : VertexAttribInterp
  normalized : Bool
  offset : Int
  deriving DecidableEq, Repr

/-- Conversion of a C++ signed integer value to `size_t` (unsigned 64-bit):
reduction modulo 2^64 = 18446744073709551616. -/
def uiCast (x : Int) : Nat := (x % 18446744073709551616).toNat

/-- `typeToBytes(type) * numComponents`, the byte size of one attribute. -/
def attribSize (a : VertexAttribute) : Int := typeToBytes a.type * a.numComponents

/-- The `size_t end` computed in the debug integrity pass:
`attribs[i].offset + typeToBytes(attribs[i].type) * attribs[i].numComponents`
is evaluated in `int` arithmetic and then converted to `size_t`. -/
def attribEndU (a : VertexAttribute) : Nat := uiCast (a.offset + attribSize a)

/-- Native calls issued by `setAttributes`, in order. -/
inductive GLCall where
  | getIntegerv
  | bindVertexArray
  | disableVertexAttribArray (index : Nat)
  | enableVertexAttribArray (index : Nat)
  | vertexAttribIPointer (index : Nat) (numComponents : Int) (glType : Nat)
      (stride : Int) (offset : Int)
  | vertexAttribPointer (index : Nat) (numComponents : Int) (glType : Nat)
      (normalized : Bool) (stride : Int) (offset : Int)
  deriving DecidableEq, Repr

/-- Inner `j` loop of the debug integrity pass: the first index `j` with
`i != j` and `attribs[i].offset <= attribs[j].offset && end > attribs[j].offset`
(in the second comparison `attribs[j].offset` is converted to `size_t`
because `end` has type `size_t`).  `j` is the position counter. -/
def findOverlapJ (offI : Int) (endU : Nat) (i : Nat) :
    Nat → List VertexAttribute → Option Nat
  | _, [] => none
  | j, a :: rest =>
    if i ≠ j ∧ offI ≤ a.offset ∧ endU > uiCast a.offset then some j
    else findOverlapJ offI endU i (j + 1) rest

/-- Outer `i` loop of the debug integrity pass (the `DEBUG_ONLY` block):
for each descriptor first the stride check
(`end > stride`, with `stride` converted to `size_t`), then the overlap
scan against all other descriptors. -/
def integrityLoop (stride : Int) (all : List VertexAttribute) :
    Nat → List VertexAttribute → Option GlaError
  | _, [] => none
  | i, a :: rest =>
    if attribEndU a > uiCast stride then some .attribsExceedStride
    else
      match findOverlapJ a.offset (attribEndU a) i 0 all with
      | some j => some (.attribsOverlap i j)
      | none => integrityLoop stride all (i + 1) rest

/-- The whole debug integrity pass over a layout. -/
def integrityCheck (attribs : List VertexAttribute) (stride : Int) : Option GlaError :=
  integrityLoop stride attribs 0 attribs

/-- The `glVertexAttrib[I]Pointer` call issued for one valid descriptor:
the integer-pointer variant for `Integer` interpretation (ignoring
`normalized`), the float-pointer variant otherwise. -/
def pointerCall (stride : Int) (a : VertexAttribute) : GLCall :=
  if a.interp = .Integer then
    .vertexAttribIPointer a.index a.numComponents (toGLenum a.type) stride a.offset
  else
    .vertexAttribPointer a.index a.numComponents (toGLenum a.type) a.normalized
      stride a.offset

/-- Result of `setAttributes`: `error = some e` models a throw, `enabled`
is `_enabledVertexAttribs` on return (or at the moment of the throw), and
`trace` lists the native calls issued. -/
structure SetAttributesResult where
  error : Option GlaError
  enabled : List Nat
  trace : List GLCall
  deriving DecidableEq, Repr

/-- The per-descriptor loop of `setAttributes`: offset, index and
numComponents checks, then `glEnableVertexAttribArray` plus recording in
`_enabledVertexAttribs`, then the type/interpretation compatibility check,
then the pointer call.  The index comparison `attrib.index >= maxVertexAttribs`
mixes `unsigned int` and `int`; it is only reached with
`maxVertexAttribs >= 0` (checked by the caller) where the C++ conversion is
value-preserving, so it is modelled as an `Int` comparison. -/
def attribLoop (stride maxVertexAttribs : Int) :
    List VertexAttribute → List Nat → List GLCall → SetAttributesResult
  | [], en, tr => ⟨none, en, tr⟩
  | a :: rest, en, tr =>
    if a.offset < 0 then ⟨some .negativeOffset, en, tr⟩
    else if (a.index : Int) ≥ maxVertexAttribs then ⟨some .indexOverMax, en, tr⟩
    else if a.numComponents > 4 ∨ a.numComponents ≤ 0 then ⟨some .badNumComponents, en, tr⟩
    else
      let en2 := en ++ [a.index]
      let tr2 := tr ++ [GLCall.enableVertexAttribArray a.index]
      match validateTypeInterpretation a.type a.interp with
      | some msg => ⟨some (.incompatibleTypeInterp msg), en2, tr2⟩
      | none => attribLoop stride maxVertexAttribs rest en2 (tr2 ++ [pointerCall stride a])

/-- The native calls issued before the per-descriptor loop once the early
checks have passed: the limit query, `bind()`, and one
`glDisableVertexAttribArray` per previously enabled index. -/
def preTrace (enabled0 : List Nat) : List GLCall :=
  GLCall.getIntegerv :: GLCall.bindVertexArray ::
    enabled0.map GLCall.disableVertexAttribArray

/-- `VertexArray::setAttributes(attribs, stride)`.

`enabled0` is `_enabledVertexAttribs` before the call, `maxVertexAttribs`
the value the GL query writes (initialized to -1, so a failed query leaves
it negative), `debug` selects the `DEBUG_ONLY` build configuration.

The comparison `maxVertexAttribs < attribs.size()` mixes `int` and
`size_t`; it is only reached with `maxVertexAttribs >= 0` (the previous
check threw otherwise), where the C++ conversion is value-preserving, so it
is modelled as an `Int` comparison. -/
def setAttributes (enabled0 : List Nat) (attribs : List VertexAttribute)
    (stride maxVertexAttribs : Int) (debug : Bool) : SetAttributesResult :=
  if stride ≤ 0 then ⟨some .strideNotPositive, enabled0, []⟩
  else if maxVertexAttribs < 0 then
    ⟨some .maxVertexAttribsQueryFailed, enabled0, [GLCall.getIntegerv]⟩
  else if maxVertexAttribs < (attribs.length : Int) then
    ⟨some (.tooManyVertexAttribs attribs.length maxVertexAttribs), enabled0,
      [GLCall.getIntegerv]⟩
  else
    if debug then
      match integrityCheck attribs stride with
      | some e => ⟨some e, [], preTrace enabled0⟩
      | none => attribLoop stride maxVertexAttribs attribs [] (preTrace enabled0)
    else attribLoop stride maxVertexAttribs attribs [] (preTrace enabled0)

/-- The native vertex-array handle owned through the `Buffer` base.

Modelled from the spec: `buffer.h` is not in the sources; the spec says the
generic buffer wrapper provides handle storage with move-only unique
ownership, moving transferring the handle and leaving the source inert
(modelled as handle 0). -/
structure Buffer where
  handle : Nat
  deriving DecidableEq, Repr

/-- Modelled from the spec: moving a `Buffer` out.  Returns the moved-to
value and what remains in the moved-from object. -/
def Buffer.moveOut (b : Buffer) : Buffer × Buffer := (⟨b.handle⟩, ⟨0⟩)

/-- `class VertexArray : public Buffer` with its private member
`_enabledVertexAttribs`. -/
structure VertexArray where
  buffer : Buffer
  enabledVertexAttribs : List Nat
  deriving DecidableEq, Repr

/-- Move constructor (header, line 80):
`VertexArray(VertexArray&& other) : Buffer(std::move(other)) {}` — only the
`Buffer` base is moved; the member `_enabledVertexAttribs` of the new
object gets its default initializer `{}` and the member of `other` is not
touched.  Returns (constructed object, state of `other` afterwards). -/
def VertexArray.moveConstruct (other : VertexArray) : VertexArray × VertexArray :=
  (⟨(other.buffer.moveOut).1, []⟩,
   ⟨(other.buffer.moveOut).2, other.enabledVertexAttribs⟩)

/-- Move assignment (header, line 103):
`operator=(VertexArray&& other) { Buffer::operator=(std::move(other)); return *this; }`
— only the `Buffer` base is assigned; neither the target member nor the
source member `_enabledVertexAttribs` changes.  Returns (target, source)
afterwards. -/
def VertexArray.moveAssign (dst src : VertexArray) : VertexArray × VertexArray :=
  (⟨(src.buffer.moveOut).1, dst.enabledVertexAttribs⟩,
   ⟨(src.buffer.moveOut).2, src.enabledVertexAttribs⟩)

/-- The preconditions the per-descriptor loop checks for one descriptor
(plus compatibility). -/
def descOK (maxVA : Int) (a : VertexAttribute) : Prop :=
  0 ≤ a.offset ∧ (a.index : Int) < maxVA ∧ 1 ≤ a.numComponents ∧
    a.numComponents ≤ 4 ∧ validateTypeInterpretation a.type a.interp = none

instance (maxVA : Int) (a : VertexAttribute) : Decidable (descOK maxVA a) := by
  unfold descOK; infer_instance

/-- The byte ranges of two descriptors do not intersect. -/
def rangesDisjoint (a b : VertexAttribute) : Prop :=
  a.offset + attribSize a ≤ b.offset ∨ b.offset + attribSize b ≤ a.offset

instance (a b : VertexAttribute) : Decidable (rangesDisjoint a b) := by
  unfold rangesDisjoint; infer_instance

/-- The byte ranges of two descriptors intersect. -/
def rangesOverlap (a b : VertexAttribute) : Prop :=
  a.offset < b.offset + attribSize b ∧ b.offset < a.offset + attribSize a

instance (a b : VertexAttribute) : Decidable (rangesOverlap a b) := by
  unfold rangesOverlap; infer_instance

/-! ## Claim theorems: pure helpers and move operations -/

/-- Claim C8: `validateTypeInterpretation` returns false exactly for the
`Integer` interpretation paired with `HalfFloat`, `Float`, `Double` or
`Fixed` (with a nonempty reason string in those cases), and true for every
other combination. -/
theorem validateTypeInterpretation_spec :
    ∀ (t : VertexAttribType) (interp : VertexAttribInterp),
      (validateTypeInterpretation t interp = none ↔
        ¬(interp = .Integer ∧
          (t = .HalfFloat ∨ t = .Float ∨ t = .Double ∨ t = .Fixed))) ∧
      (interp = .Integer ∧
          (t = .HalfFloat ∨ t = .Float ∨ t = .Double ∨ t = .Fixed) →
        0 < ((validateTypeInterpretation t interp).getD "").length) := by
  decide

/-- Claim C9: `typeToBytes` and `toGLenum` return the documented table
values on every member of the enumeration, and on a raw value outside the
enumeration both throw `std::invalid_argument`. -/
theorem scalar_size_native_enum_spec :
    (∀ t : VertexAttribType,
      typeToBytesRaw t.val = Except.ok (typeToBytes t) ∧
      toGLenumRaw t.val = Except.ok (toGLenum t)) ∧
    (typeToBytes .Byte = 1 ∧ typeToBytes .UnsignedByte = 1 ∧
      typeToBytes .Short = 2 ∧ typeToBytes .UnsignedShort = 2 ∧
      typeToBytes .HalfFloat = 2 ∧ typeToBytes .Int = 4 ∧
      typeToBytes .UnsignedInt = 4 ∧ typeToBytes .Float = 4 ∧
      typeToBytes .Fixed = 4 ∧ typeToBytes .Double = 8) ∧
    (toGLenum .Byte = 0x1400 ∧ toGLenum .UnsignedByte = 0x1401 ∧
      toGLenum .Short = 0x1402 ∧ toGLenum .UnsignedShort = 0x1403 ∧
      toGLenum .Int = 0x1404 ∧ toGLenum .UnsignedInt = 0x1405 ∧
      toGLenum .Float = 0x1406 ∧ toGLenum .Double = 0x140A ∧
      toGLenum .HalfFloat = 0x140B ∧ toGLenum .Fixed = 0x140C) ∧
    (∀ v : Int, (∀ t : VertexAttribType, v ≠ t.val) →
      typeToBytesRaw v = Except.error .invalidVertexAttribType ∧
      toGLenumRaw v = Except.error .invalidVertexAttribType) := by
  refine ⟨fun t => by cases t <;> exact ⟨rfl, rfl⟩, by decide, by decide, ?_⟩
  intro v h
  have h0 : ¬(v = 0) := by simpa [VertexAttribType.val] using h .Byte
  have h1 : ¬(v = 1) := by simpa [VertexAttribType.val] using h .UnsignedByte
  have h2 : ¬(v = 2) := by simpa [VertexAttribType.val] using h .Short
  have h3 : ¬(v = 3) := by simpa [VertexAttribType.val] using h .UnsignedShort
  have h4 : ¬(v = 4) := by simpa [VertexAttribType.val] using h .Int
  have h5 : ¬(v = 5) := by simpa [VertexAttribType.val] using h .UnsignedInt
  have h6 : ¬(v = 6) := by simpa [VertexAttribType.val] using h .HalfFloat
  have h7 : ¬(v = 7) := by simpa [VertexAttribType.val] using h .Float
  have h8 : ¬(v = 8) := by simpa [VertexAttribType.val] using h .Double
  have h9 : ¬(v = 9) := by simpa [VertexAttribType.val] using h .Fixed
  constructor <;>
    simp [typeToBytesRaw, toGLenumRaw, h0, h1, h2, h3, h4, h5, h6, h7, h8, h9]

/-- Witness for C8 at a concrete incompatible pair. -/
theorem validateTypeInterpretation_spec_witness :
    0 < ((validateTypeInterpretation .Float .Integer).getD "").length :=
  (validateTypeInterpretation_spec .Float .Integer).2 (by decide)

/-- Witness for C9 at the concrete out-of-range value 42. -/
theorem scalar_size_native_enum_spec_witness :
    typeToBytesRaw 42 = Except.error .invalidVertexAttribType ∧
    toGLenumRaw 42 = Except.error .invalidVertexAttribType :=
  scalar_size_native_enum_spec.2.2.2 42 (by decide)

/-- Claim C3 (refuted, code bug): the move constructor and move assignment
do not transfer `_enabledVertexAttribs`.  Concretely, move-constructing
from a `VertexArray` with handle 7 and enabled-index list `[0, 1]` yields
an object whose handle is 7 but whose enabled-index list is `[]`, not
`[0, 1]`; move-assigning onto a target whose list is `[2]` leaves `[2]` in
place. -/
theorem move_drops_enabled_set :
    (VertexArray.moveConstruct ⟨⟨7⟩, [0, 1]⟩).1.buffer.handle = 7 ∧
    (VertexArray.moveConstruct ⟨⟨7⟩, [0, 1]⟩).1.enabledVertexAttribs = [] ∧
    ¬((VertexArray.moveConstruct ⟨⟨7⟩, [0, 1]⟩).1.enabledVertexAttribs = [0, 1]) ∧
    (VertexArray.moveAssign ⟨⟨5⟩, [2]⟩ ⟨⟨7⟩, [0, 1]⟩).1.buffer.handle = 7 ∧
    (VertexArray.moveAssign ⟨⟨5⟩, [2]⟩ ⟨⟨7⟩, [0, 1]⟩).1.enabledVertexAttribs = [2] := by
  decide

/-! ## Loop lemmas -/

theorem findOverlapJ_none_iff (offI : Int) (endU : Nat) (i : Nat) :
    ∀ (l : List VertexAttribute) (j : Nat),
      findOverlapJ offI endU i j l = none ↔
        ∀ k (hk : k < l.length),
          ¬(i ≠ j + k ∧ offI ≤ l[k].offset ∧ endU > uiCast l[k].offset) := by
  intro l
  induction l with
  | nil => intro j; simp [findOverlapJ]
  | cons a rest ih =>
    intro j
    simp only [findOverlapJ]
    by_cases h : i ≠ j ∧ offI ≤ a.offset ∧ endU > uiCast a.offset
    · rw [if_pos h]
      simp only [reduceCtorEq, false_iff]
      intro hall
      exact (hall 0 (by simp)) (by simpa using h)
    · rw [if_neg h, ih (j + 1)]
      constructor
      · intro hall k hk
        match k with
        | 0 => simpa using fun hij => fun h1 h2 => h ⟨hij, h1, h2⟩
        | Nat.succ m =>
          have hm : m < rest.length := by simpa using hk
          have := hall m hm
          simpa [Nat.add_right_comm j 1 m] using this
      · intro hall k hk
        have := hall (k + 1) (by simpa using Nat.succ_lt_succ hk)
        simpa [Nat.add_right_comm j 1 k] using this

theorem findOverlapJ_some (offI : Int) (endU : Nat) (i : Nat) :
    ∀ (l : List VertexAttribute) (j q : Nat),
      findOverlapJ offI endU i j l = some q →
      ∃ k, ∃ (hk : k < l.length), q = j + k ∧ i ≠ q ∧
        offI ≤ l[k].offset ∧ endU > uiCast l[k].offset := by
  intro l
  induction l with
  | nil => intro j q h; simp [findOverlapJ] at h
  | cons a rest ih =>
    intro j q h
    simp only [findOverlapJ] at h
    by_cases hc : i ≠ j ∧ offI ≤ a.offset ∧ endU > uiCast a.offset
    · rw [if_pos hc] at h
      have hq : q = j := by simpa using h.symm
      subst hq
      exact ⟨0, by simp, by simp, hc.1, by simpa using hc.2⟩
    · rw [if_neg hc] at h
      obtain ⟨k, hk, h1, h2, h3, h4⟩ := ih (j + 1) q h
      exact ⟨k + 1, by simpa using Nat.succ_lt_succ hk,
        by omega, h2, by simpa using h3, by simpa using h4⟩

theorem integrityLoop_none_iff (stride : Int) (all : List VertexAttribute) :
    ∀ (l : List VertexAttribute) (i : Nat),
      integrityLoop stride all i l = none ↔
        ∀ k (hk : k < l.length),
          attribEndU l[k] ≤ uiCast stride ∧
          findOverlapJ l[k].offset (attribEndU l[k]) (i + k) 0 all = none := by
  intro l
  induction l with
  | nil => intro i; simp [integrityLoop]
  | cons a rest ih =>
    intro i
    simp only [integrityLoop]
    by_cases h1 : attribEndU a > uiCast stride
    · rw [if_pos h1]
      simp only [reduceCtorEq, false_iff]
      intro hall
      exact absurd (hall 0 (by simp)).1 (by simpa using h1)
    · rw [if_neg h1]
      cases hfo : findOverlapJ a.offset (attribEndU a) i 0 all with
      | some q =>
        simp only [reduceCtorEq, false_iff]
        intro hall
        have := (hall 0 (by simp)).2
        simp only [List.getElem_cons_zero, Nat.add_zero] at this
        rw [this] at hfo
        exact absurd hfo (by simp)
      | none =>
        rw [ih (i + 1)]
        constructor
        · intro hall k hk
          match k with
          | 0 =>
            refine ⟨by simpa using Nat.le_of_not_lt h1, ?_⟩
            simpa using hfo
          | Nat.succ m =>
            have hm : m < rest.length := by simpa using hk
            have := hall m hm
            simpa [Nat.add_right_comm i 1 m] using this
        · intro hall k hk
          have := hall (k + 1) (by simpa using Nat.succ_lt_succ hk)
          simpa [Nat.add_right_comm i 1 k] using this

theorem integrityLoop_skip (stride : Int) (all : List VertexAttribute) :
    ∀ (l1 l2 : List VertexAttribute) (i : Nat),
      (∀ k (hk : k < l1.length),
        attribEndU l1[k] ≤ uiCast stride ∧
        findOverlapJ l1[k].offset (attribEndU l1[k]) (i + k) 0 all = none) →
      integrityLoop stride all i (l1 ++ l2) =
        integrityLoop stride all (i + l1.length) l2 := by
  intro l1
  induction l1 with
  | nil => intro l2 i _; simp
  | cons a rest ih =>
    intro l2 i hall
    have h0 := hall 0 (by simp)
    simp only [List.getElem_cons_zero, Nat.add_zero] at h0
    simp only [List.cons_append, integrityLoop]
    rw [if_neg (by omega), h0.2]
    show integrityLoop stride all (i + 1) (rest ++ l2) =
      integrityLoop stride all (i + (rest.length + 1)) l2
    rw [ih l2 (i + 1) (fun k hk => by
      have := hall (k + 1) (by simpa using Nat.succ_lt_succ hk)
      simpa [Nat.add_right_comm i 1 k] using this)]
    congr 1
    omega

theorem integrityLoop_some (stride : Int) (all : List VertexAttribute) :
    ∀ (l : List VertexAttribute) (i : Nat) (e : GlaError),
      integrityLoop stride all i l = some e →
      (e = .attribsExceedStride ∧
        ∃ k, ∃ (hk : k < l.length), attribEndU l[k] > uiCast stride) ∨
      (∃ p q, e = .attribsOverlap p q ∧ ∃ k, ∃ (hk : k < l.length), p = i + k ∧
        findOverlapJ l[k].offset (attribEndU l[k]) p 0 all = some q) := by
  intro l
  induction l with
  | nil => intro i e h; simp [integrityLoop] at h
  | cons a rest ih =>
    intro i e h
    simp only [integrityLoop] at h
    by_cases h1 : attribEndU a > uiCast stride
    · rw [if_pos h1] at h
      have he : e = .attribsExceedStride := by simpa using h.symm
      exact Or.inl ⟨he, 0, by simp, by simpa using h1⟩
    · rw [if_neg h1] at h
      cases hfo : findOverlapJ a.offset (attribEndU a) i 0 all with
      | some q =>
        rw [hfo] at h
        have he : e = .attribsOverlap i q := by simpa using h.symm
        exact Or.inr ⟨i, q, he, 0, by simp, by simp, by simpa using hfo⟩
      | none =>
        rw [hfo] at h
        rcases ih (i + 1) e h with ⟨he, k, hk, hgt⟩ | ⟨p, q, he, k, hk, hp, hfind⟩
        · exact Or.inl ⟨he, k + 1, by simpa using Nat.succ_lt_succ hk,
            by simpa using hgt⟩
        · exact Or.inr ⟨p, q, he, k + 1, by simpa using Nat.succ_lt_succ hk,
            by omega, by simpa using hfind⟩

/-- The enable and pointer calls issued by a fully successful
per-descriptor loop. -/
def okTrace (stride : Int) : List VertexAttribute → List GLCall
  | [] => []
  | a :: rest =>
    GLCall.enableVertexAttribArray a.index :: pointerCall stride a ::
      okTrace stride rest

theorem attribLoop_append (stride maxVA : Int) :
    ∀ (l1 l2 : List VertexAttribute) (en : List Nat) (tr : List GLCall),
      (∀ a ∈ l1, descOK maxVA a) →
      attribLoop stride maxVA (l1 ++ l2) en tr =
        attribLoop stride maxVA l2 (en ++ l1.map VertexAttribute.index)
          (tr ++ okTrace stride l1) := by
  intro l1
  induction l1 with
  | nil => intro l2 en tr _; simp [okTrace]
  | cons a rest ih =>
    intro l2 en tr hall
    obtain ⟨ho, hi, hn1, hn2, hv⟩ := hall a (List.mem_cons_self a rest)
    simp only [List.cons_append, attribLoop]
    rw [if_neg (by omega), if_neg (by omega), if_neg (by omega), hv]
    show attribLoop stride maxVA (rest ++ l2) (en ++ [a.index])
        (tr ++ [GLCall.enableVertexAttribArray a.index] ++ [pointerCall stride a]) = _
    rw [ih l2 (en ++ [a.index]) _ (fun b hb => hall b (List.mem_cons_of_mem a hb))]
    simp [okTrace]

theorem attribLoop_result_none (stride maxVA : Int) :
    ∀ (l : List VertexAttribute) (en : List Nat) (tr : List GLCall),
      (attribLoop stride maxVA l en tr).error = none →
      attribLoop stride maxVA l en tr =
        ⟨none, en ++ l.map VertexAttribute.index, tr ++ okTrace stride l⟩ := by
  intro l
  induction l with
  | nil => intro en tr _; simp [attribLoop, okTrace]
  | cons a rest ih =>
    intro en tr h
    simp only [attribLoop] at h ⊢
    by_cases h1 : a.offset < 0
    · rw [if_pos h1] at h; simp at h
    rw [if_neg h1] at h ⊢
    by_cases h2 : (a.index : Int) ≥ maxVA
    · rw [if_pos h2] at h; simp at h
    rw [if_neg h2] at h ⊢
    by_cases h3 : a.numComponents > 4 ∨ a.numComponents ≤ 0
    · rw [if_pos h3] at h; simp at h
    rw [if_neg h3] at h ⊢
    cases hv : validateTypeInterpretation a.type a.interp with
    | some msg => rw [hv] at h; simp at h
    | none =>
      rw [hv] at h
      show attribLoop stride maxVA rest (en ++ [a.index])
          (tr ++ [GLCall.enableVertexAttribArray a.index] ++ [pointerCall stride a]) = _
      rw [ih (en ++ [a.index])
        (tr ++ [GLCall.enableVertexAttribArray a.index] ++ [pointerCall stride a]) h]
      simp [okTrace]

theorem setAttributes_success_shape
    (enabled0 : List Nat) (l : List VertexAttribute)
    (stride maxVA : Int) (debug : Bool)
    (h : (setAttributes enabled0 l stride maxVA debug).error = none) :
    setAttributes enabled0 l stride maxVA debug =
      ⟨none, l.map VertexAttribute.index, preTrace enabled0 ++ okTrace stride l⟩ := by
  unfold setAttributes at h ⊢
  by_cases h1 : stride ≤ 0
  · rw [if_pos h1] at h; simp at h
  rw [if_neg h1] at h ⊢
  by_cases h2 : maxVA < 0
  · rw [if_pos h2] at h; simp at h
  rw [if_neg h2] at h ⊢
  by_cases h3 : maxVA < (l.length : Int)
  · rw [if_pos h3] at h; simp at h
  rw [if_neg h3] at h ⊢
  cases debug with
  | false =>
    simp only [Bool.false_eq_true, if_false] at h ⊢
    exact attribLoop_result_none stride maxVA l [] (preTrace enabled0) h
  | true =>
    simp only [if_true] at h ⊢
    cases hic : integrityCheck l stride with
    | some e => rw [hic] at h; simp at h
    | none =>
      rw [hic] at h
      show attribLoop stride maxVA l [] (preTrace enabled0) = _
      exact attribLoop_result_none stride maxVA l [] (preTrace enabled0) h

/-! ## Arithmetic bridges -/

theorem typeToBytes_bounds (t : VertexAttribType) :
    1 ≤ typeToBytes t ∧ typeToBytes t ≤ 8 := by
  cases t <;> simp [typeToBytes]

theorem attribSize_bounds (a : VertexAttribute)
    (h1 : 1 ≤ a.numComponents) (h2 : a.numComponents ≤ 4) :
    1 ≤ attribSize a ∧ attribSize a ≤ 32 := by
  obtain ⟨hb1, hb2⟩ := typeToBytes_bounds a.type
  unfold attribSize
  constructor <;> nlinarith

theorem uiCast_of_nonneg (x : Int) (h0 : 0 ≤ x) (h1 : x < 18446744073709551616) :
    uiCast x = x.toNat := by
  unfold uiCast; omega

theorem rangesDisjoint_symm {a b : VertexAttribute} (h : rangesDisjoint a b) :
    rangesDisjoint b a := h.symm

theorem pairwise_disjoint_get {l : List VertexAttribute}
    (h : l.Pairwise rangesDisjoint) (k m : Nat)
    (hk : k < l.length) (hm : m < l.length) (hne : k ≠ m) :
    rangesDisjoint l[k] l[m] := by
  rcases Nat.lt_or_ge k m with hlt | hge
  · have := List.pairwise_iff_get.mp h ⟨k, hk⟩ ⟨m, hm⟩ hlt
    simpa using this
  · have hmk : m < k := by omega
    have := List.pairwise_iff_get.mp h ⟨m, hm⟩ ⟨k, hk⟩ hmk
    exact rangesDisjoint_symm (by simpa using this)

/-- Under the documented layout invariant no iteration of the debug
integrity pass throws. -/
theorem integrityCheck_none_of_valid (attribs : List VertexAttribute) (stride : Int)
    (hstride : 0 < stride) (hstride31 : stride < 2 ^ 31)
    (hoff : ∀ a ∈ attribs, 0 ≤ a.offset)
    (hnc : ∀ a ∈ attribs, 1 ≤ a.numComponents ∧ a.numComponents ≤ 4)
    (hfit : ∀ a ∈ attribs, a.offset + attribSize a ≤ stride)
    (hdisj : attribs.Pairwise rangesDisjoint) :
    integrityCheck attribs stride = none := by
  unfold integrityCheck
  rw [integrityLoop_none_iff]
  intro k hk
  have hmem : attribs[k] ∈ attribs := List.getElem_mem hk
  obtain ⟨hs1, hs2⟩ := attribSize_bounds attribs[k] (hnc _ hmem).1 (hnc _ hmem).2
  have hoffk := hoff _ hmem
  have hfitk := hfit _ hmem
  constructor
  · rw [attribEndU, uiCast_of_nonneg _ (by omega) (by omega),
      uiCast_of_nonneg stride (by omega) (by omega)]
    omega
  · rw [findOverlapJ_none_iff]
    intro m hm
    simp only [Nat.zero_add]
    rintro ⟨hne, hle, hgt⟩
    have hmemm : attribs[m] ∈ attribs := List.getElem_mem hm
    obtain ⟨hsm1, hsm2⟩ := attribSize_bounds attribs[m] (hnc _ hmemm).1 (hnc _ hmemm).2
    have hfitm := hfit _ hmemm
    have hoffm := hoff _ hmemm
    rw [attribEndU, uiCast_of_nonneg _ (by omega) (by omega),
      uiCast_of_nonneg _ hoffm (by omega)] at hgt
    rcases pairwise_disjoint_get hdisj k m hk hm hne with hd | hd
    · omega
    · omega

/-- Enable calls of a fully processed descriptor list. -/
theorem okTrace_enable_mem (stride : Int) :
    ∀ (l : List VertexAttribute) (a : VertexAttribute), a ∈ l →
      GLCall.enableVertexAttribArray a.index ∈ okTrace stride l := by
  intro l
  induction l with
  | nil => intro a ha; simp at ha
  | cons b rest ih =>
    intro a ha
    rcases List.mem_cons.mp ha with rfl | ha
    · simp [okTrace]
    · simp only [okTrace, List.mem_cons]
      exact Or.inr (Or.inr (ih a ha))

/-- A successful per-descriptor loop never issues a disable call. -/
theorem okTrace_no_disable (stride : Int) :
    ∀ (l : List VertexAttribute), ∀ c ∈ okTrace stride l, ∀ i,
      c ≠ GLCall.disableVertexAttribArray i := by
  intro l
  induction l with
  | nil => intro c hc; simp [okTrace] at hc
  | cons a rest ih =>
    intro c hc i
    simp only [okTrace, List.mem_cons] at hc
    rcases hc with rfl | rfl | hc
    · simp
    · unfold pointerCall; split <;> simp
    · exact ih c hc i

/-! ## Claim theorems: early failures of setAttributes -/

/-- Claim C4: with `stride <= 0` the call throws `std::invalid_argument`
before touching anything: the enabled-index list is unchanged and no native
call has been issued. -/
theorem setAttributes_nonpositive_stride
    (enabled0 : List Nat) (attribs : List VertexAttribute)
    (stride maxVA : Int) (debug : Bool) (h : stride ≤ 0) :
    setAttributes enabled0 attribs stride maxVA debug =
      ⟨some .strideNotPositive, enabled0, []⟩ ∧
    GlaError.strideNotPositive.isInvalidArgument = true := by
  refine ⟨?_, rfl⟩
  unfold setAttributes
  rw [if_pos h]

/-- Witness for C4 at stride 0. -/
theorem setAttributes_nonpositive_stride_witness :
    setAttributes [3] [] 0 16 false = ⟨some .strideNotPositive, [3], []⟩ ∧
    GlaError.strideNotPositive.isInvalidArgument = true :=
  setAttributes_nonpositive_stride [3] [] 0 16 false (by decide)

/-- Claim C7: a layout with more descriptors than the queried platform
limit fails with a `std::runtime_error` carrying both the requested count
and the limit; the failure happens right after the query, before the
object is bound and before any attribute is disabled or enabled, so the
enabled-index list is unchanged and the trace holds only the query. -/
theorem setAttributes_over_platform_limit
    (enabled0 : List Nat) (attribs : List VertexAttribute)
    (stride maxVA : Int) (debug : Bool)
    (hstride : 0 < stride) (hq : 0 ≤ maxVA)
    (hover : maxVA < (attribs.length : Int)) :
    setAttributes enabled0 attribs stride maxVA debug =
      ⟨some (.tooManyVertexAttribs attribs.length maxVA), enabled0,
        [GLCall.getIntegerv]⟩ ∧
    (GlaError.tooManyVertexAttribs attribs.length maxVA).isInvalidArgument = false := by
  refine ⟨?_, rfl⟩
  unfold setAttributes
  rw [if_neg (by omega), if_neg (by omega), if_pos hover]

/-- Witness for C7: two descriptors against a platform limit of 1. -/
theorem setAttributes_over_platform_limit_witness :
    setAttributes [] [⟨0, 1, .Float, .Float, false, 0⟩, ⟨1, 1, .Float, .Float, false, 4⟩]
        8 1 false =
      ⟨some (.tooManyVertexAttribs 2 1), [], [GLCall.getIntegerv]⟩ ∧
    (GlaError.tooManyVertexAttribs 2 1).isInvalidArgument = false := by
  have h := setAttributes_over_platform_limit []
    [⟨0, 1, .Float, .Float, false, 0⟩, ⟨1, 1, .Float, .Float, false, 4⟩]
    8 1 false (by decide) (by decide) (by decide)
  simpa using h

/-! ## Helpers for the debug integrity pass claims -/

/-- With the early checks passed and a failing integrity pass, the debug
build throws the integrity error right after clearing the enabled list. -/
theorem setAttributes_integrity_err
    (enabled0 : List Nat) (attribs : List VertexAttribute)
    (stride maxVA : Int) (e : GlaError)
    (hstride : 0 < stride) (hmax : 0 ≤ maxVA)
    (hcount : (attribs.length : Int) ≤ maxVA)
    (hic : integrityCheck attribs stride = some e) :
    setAttributes enabled0 attribs stride maxVA true =
      ⟨some e, [], preTrace enabled0⟩ := by
  unfold setAttributes
  rw [if_neg (by omega), if_neg (by omega), if_neg (by omega), hic]
  rfl

theorem integrityLoop_exceed (stride : Int) (all : List VertexAttribute) :
    ∀ (l : List VertexAttribute) (i : Nat),
      (∀ k (hk : k < l.length),
        findOverlapJ l[k].offset (attribEndU l[k]) (i + k) 0 all = none) →
      (∃ k, ∃ (hk : k < l.length), attribEndU l[k] > uiCast stride) →
      integrityLoop stride all i l = some .attribsExceedStride := by
  intro l
  induction l with
  | nil =>
    intro i _ hex
    obtain ⟨k, hk, _⟩ := hex
    simp at hk
  | cons a rest ih =>
    intro i hfo hex
    simp only [integrityLoop]
    by_cases h1 : attribEndU a > uiCast stride
    · rw [if_pos h1]
    · rw [if_neg h1]
      have h0 := hfo 0 (by simp)
      simp only [List.getElem_cons_zero, Nat.add_zero] at h0
      rw [h0]
      apply ih (i + 1)
      · intro k hk
        have := hfo (k + 1) (by simpa using Nat.succ_lt_succ hk)
        simpa [Nat.add_right_comm i 1 k] using this
      · obtain ⟨k, hk, hgt⟩ := hex
        match k with
        | 0 => exact absurd (by simpa using hgt) h1
        | Nat.succ m => exact ⟨m, by simpa using hk, by simpa using hgt⟩

/-- For a pairwise-disjoint layout with in-range offsets, no overlap scan
of the integrity pass hits. -/
theorem scans_none_of_disjoint (attribs : List VertexAttribute)
    (hoff : ∀ a ∈ attribs, 0 ≤ a.offset ∧ a.offset < 2 ^ 31)
    (hnc : ∀ a ∈ attribs, 1 ≤ a.numComponents ∧ a.numComponents ≤ 4)
    (hdisj : attribs.Pairwise rangesDisjoint) :
    ∀ k (hk : k < attribs.length),
      findOverlapJ attribs[k].offset (attribEndU attribs[k]) (0 + k) 0
        attribs = none := by
  intro k hk
  rw [findOverlapJ_none_iff]
  intro m hm
  simp only [Nat.zero_add]
  rintro ⟨hne, hle, hgt⟩
  have hkmem := List.getElem_mem hk
  have hmmem := List.getElem_mem hm
  obtain ⟨hsk1, hsk2⟩ := attribSize_bounds attribs[k] (hnc _ hkmem).1 (hnc _ hkmem).2
  obtain ⟨hsm1, hsm2⟩ := attribSize_bounds attribs[m] (hnc _ hmmem).1 (hnc _ hmmem).2
  obtain ⟨hok1, hok2⟩ := hoff _ hkmem
  obtain ⟨hom1, hom2⟩ := hoff _ hmmem
  rw [attribEndU, uiCast_of_nonneg _ (by omega) (by omega),
    uiCast_of_nonneg _ hom1 (by omega)] at hgt
  rcases pairwise_disjoint_get hdisj k m hk hm hne with hd | hd <;> omega

/-- If two descriptors genuinely overlap (the earlier-offset one given
first), the integrity pass cannot succeed. -/
theorem integrityCheck_hit (attribs : List VertexAttribute) (stride : Int)
    (p q : Nat) (hp : p < attribs.length) (hq : q < attribs.length) (hpq : p ≠ q)
    (hoffp : 0 ≤ attribs[p].offset) (hoffp31 : attribs[p].offset < 2 ^ 31)
    (hoffq : 0 ≤ attribs[q].offset)
    (hncp1 : 1 ≤ attribs[p].numComponents) (hncp2 : attribs[p].numComponents ≤ 4)
    (hle : attribs[p].offset ≤ attribs[q].offset)
    (hov : attribs[q].offset < attribs[p].offset + attribSize attribs[p]) :
    integrityCheck attribs stride ≠ none := by
  intro hnone
  unfold integrityCheck at hnone
  have hsc := ((integrityLoop_none_iff stride attribs attribs 0).mp hnone p hp).2
  rw [findOverlapJ_none_iff] at hsc
  refine hsc q hq ?_
  simp only [Nat.zero_add]
  obtain ⟨hs1, hs2⟩ := attribSize_bounds attribs[p] hncp1 hncp2
  refine ⟨hpq, hle, ?_⟩
  rw [attribEndU, uiCast_of_nonneg _ (by omega) (by omega),
    uiCast_of_nonneg _ hoffq (by omega)]
  omega

theorem getElem_append_mid (l1 l2 : List VertexAttribute) (x : VertexAttribute)
    (hj : l1.length < (l1 ++ x :: l2).length) :
    (l1 ++ x :: l2)[l1.length] = x := by
  rw [List.getElem_append_right (le_refl _)]
  simp

theorem getElem_append_cons (l1 l2 : List VertexAttribute) (x : VertexAttribute)
    (m : Nat) (hm : m < l2.length)
    (hj : l1.length + 1 + m < (l1 ++ x :: l2).length) :
    (l1 ++ x :: l2)[l1.length + 1 + m] = l2[m] := by
  rw [List.getElem_append_right (by omega)]
  have h2 : l1.length + 1 + m - l1.length = m + 1 := by omega
  simp only [h2]
  simp

/-! ## Claim theorems: the main success and partial-failure paths -/

/-- Claim C1: for a layout and stride satisfying all documented
preconditions — `stride > 0` (within `int` range), non-negative offsets,
indices below the queried limit, component counts in `[1, 4]`, compatible
`(type, interp)` pairs, descriptor count within the queried limit, and the
documented layout invariant (each descriptor fits in the stride, no two
byte ranges overlap) — `setAttributes` raises no failure and afterwards
the enabled-index set equals exactly the indices of the layout, in either
build configuration. -/
theorem setAttributes_valid_roundtrip
    (enabled0 : List Nat) (attribs : List VertexAttribute)
    (stride maxVA : Int) (debug : Bool)
    (hstride : 0 < stride) (hstride31 : stride < 2 ^ 31)
    (hmax : 0 ≤ maxVA) (hcount : (attribs.length : Int) ≤ maxVA)
    (hdesc : ∀ a ∈ attribs, descOK maxVA a)
    (hfit : ∀ a ∈ attribs, a.offset + attribSize a ≤ stride)
    (hdisj : attribs.Pairwise rangesDisjoint) :
    (setAttributes enabled0 attribs stride maxVA debug).error = none ∧
    ∀ i, i ∈ (setAttributes enabled0 attribs stride maxVA debug).enabled ↔
      ∃ a ∈ attribs, a.index = i := by
  have hoff : ∀ a ∈ attribs, 0 ≤ a.offset := fun a ha => (hdesc a ha).1
  have hnc : ∀ a ∈ attribs, 1 ≤ a.numComponents ∧ a.numComponents ≤ 4 :=
    fun a ha => ⟨(hdesc a ha).2.2.1, (hdesc a ha).2.2.2.1⟩
  have hic := integrityCheck_none_of_valid attribs stride hstride hstride31
    hoff hnc hfit hdisj
  have hl : attribLoop stride maxVA attribs [] (preTrace enabled0) =
      ⟨none, attribs.map VertexAttribute.index,
        preTrace enabled0 ++ okTrace stride attribs⟩ := by
    have := attribLoop_append stride maxVA attribs [] [] (preTrace enabled0) hdesc
    simpa [attribLoop] using this
  have herr : (setAttributes enabled0 attribs stride maxVA debug).error = none := by
    unfold setAttributes
    rw [if_neg (by omega), if_neg (by omega), if_neg (by omega)]
    cases debug with
    | false => simp [hl]
    | true => simp [hic, hl]
  refine ⟨herr, ?_⟩
  rw [setAttributes_success_shape enabled0 attribs stride maxVA debug herr]
  intro i
  simp [List.mem_map]

/-- Witness for C1: a two-descriptor layout at stride 16 in the debug
build, starting from a previously configured object. -/
theorem setAttributes_valid_roundtrip_witness :
    (setAttributes [5]
        [⟨0, 3, .Float, .Float, false, 0⟩, ⟨1, 1, .UnsignedByte, .Integer, false, 12⟩]
        16 16 true).error = none ∧
    ∀ i, i ∈ (setAttributes [5]
        [⟨0, 3, .Float, .Float, false, 0⟩, ⟨1, 1, .UnsignedByte, .Integer, false, 12⟩]
        16 16 true).enabled ↔
      ∃ a ∈ [(⟨0, 3, .Float, .Float, false, 0⟩ : VertexAttribute),
        ⟨1, 1, .UnsignedByte, .Integer, false, 12⟩], a.index = i :=
  setAttributes_valid_roundtrip [5]
    [⟨0, 3, .Float, .Float, false, 0⟩, ⟨1, 1, .UnsignedByte, .Integer, false, 12⟩]
    16 16 true (by decide) (by decide) (by decide) (by decide) (by decide)
    (by decide) (by decide)

/-- Claim C2: if two successive `setAttributes` calls on the same object
both succeed, the second call issues a disable for every index enabled by
the first call, all of them before any enable, and afterwards the
enabled-index set equals exactly the indices of the second layout. -/
theorem setAttributes_reconfigure
    (s0 : List Nat) (l1 l2 : List VertexAttribute)
    (stride1 stride2 maxVA1 maxVA2 : Int) (debug : Bool)
    (r1 r2 : SetAttributesResult)
    (h1 : setAttributes s0 l1 stride1 maxVA1 debug = r1)
    (h2 : setAttributes r1.enabled l2 stride2 maxVA2 debug = r2)
    (hok1 : r1.error = none) (hok2 : r2.error = none) :
    (∀ i ∈ r1.enabled, GLCall.disableVertexAttribArray i ∈ r2.trace) ∧
    (∃ pre post, r2.trace = pre ++ post ∧
      (∀ i ∈ r1.enabled, GLCall.disableVertexAttribArray i ∈ pre) ∧
      (∀ c ∈ pre, ∀ i, c ≠ GLCall.enableVertexAttribArray i) ∧
      (∀ c ∈ post, ∀ i, c ≠ GLCall.disableVertexAttribArray i)) ∧
    (∀ i, i ∈ r2.enabled ↔ ∃ a ∈ l2, a.index = i) := by
  subst h1
  subst h2
  set en1 := (setAttributes s0 l1 stride1 maxVA1 debug).enabled with hen1
  rw [setAttributes_success_shape en1 l2 stride2 maxVA2 debug hok2]
  have hdis : ∀ i ∈ en1,
      GLCall.disableVertexAttribArray i ∈ preTrace en1 := by
    intro i hi
    simp only [preTrace, List.mem_cons]
    exact Or.inr (Or.inr (List.mem_map_of_mem _ hi))
  refine ⟨?_, ⟨preTrace en1, okTrace stride2 l2, rfl, hdis, ?_, ?_⟩, ?_⟩
  · intro i hi
    exact List.mem_append_left _ (hdis i hi)
  · intro c hc i
    simp only [preTrace, List.mem_cons] at hc
    rcases hc with rfl | rfl | hc
    · simp
    · simp
    · obtain ⟨j, _, rfl⟩ := List.mem_map.mp hc
      simp
  · exact okTrace_no_disable stride2 l2
  · intro i
    simp [List.mem_map]

/-- Witness for C2: reconfiguring from a one-descriptor layout at index 0
to a one-descriptor layout at index 1. -/
theorem setAttributes_reconfigure_witness :
    (∀ i ∈ (setAttributes [] [⟨0, 3, .Float, .Float, false, 0⟩] 12 16 false).enabled,
      GLCall.disableVertexAttribArray i ∈
        (setAttributes
          (setAttributes [] [⟨0, 3, .Float, .Float, false, 0⟩] 12 16 false).enabled
          [⟨1, 1, .Byte, .Integer, true, 0⟩] 4 16 false).trace) ∧
    (∃ pre post,
      (setAttributes
          (setAttributes [] [⟨0, 3, .Float, .Float, false, 0⟩] 12 16 false).enabled
          [⟨1, 1, .Byte, .Integer, true, 0⟩] 4 16 false).trace = pre ++ post ∧
      (∀ i ∈ (setAttributes [] [⟨0, 3, .Float, .Float, false, 0⟩] 12 16 false).enabled,
        GLCall.disableVertexAttribArray i ∈ pre) ∧
      (∀ c ∈ pre, ∀ i, c ≠ GLCall.enableVertexAttribArray i) ∧
      (∀ c ∈ post, ∀ i, c ≠ GLCall.disableVertexAttribArray i)) ∧
    (∀ i, i ∈ (setAttributes
          (setAttributes [] [⟨0, 3, .Float, .Float, false, 0⟩] 12 16 false).enabled
          [⟨1, 1, .Byte, .Integer, true, 0⟩] 4 16 false).enabled ↔
      ∃ a ∈ [(⟨1, 1, .Byte, .Integer, true, 0⟩ : VertexAttribute)], a.index = i) :=
  setAttributes_reconfigure [] [⟨0, 3, .Float, .Float, false, 0⟩]
    [⟨1, 1, .Byte, .Integer, true, 0⟩] 12 4 16 16 false _ _ rfl rfl
    (by decide) (by decide)

/-- Claim C6: when the descriptor at position `k` passes the offset, index
and component-count checks but fails the type/interpretation compatibility
check, the call throws with that reason and no rollback happens: every
descriptor before `k` is still recorded in the enabled-index set (and its
enable call was issued), and — because enabling and recording precede the
compatibility check — the index of descriptor `k` itself is recorded too. -/
theorem setAttributes_no_rollback
    (enabled0 : List Nat) (pre post : List VertexAttribute) (ak : VertexAttribute)
    (stride maxVA : Int) (debug : Bool) (msg : String)
    (hstride : 0 < stride)
    (hmax : 0 ≤ maxVA) (hcount : (((pre ++ ak :: post)).length : Int) ≤ maxVA)
    (hpre : ∀ a ∈ pre, descOK maxVA a)
    (hak1 : 0 ≤ ak.offset) (hak2 : (ak.index : Int) < maxVA)
    (hak3 : 1 ≤ ak.numComponents) (hak4 : ak.numComponents ≤ 4)
    (hbad : validateTypeInterpretation ak.type ak.interp = some msg)
    (hdbg : debug = true → integrityCheck (pre ++ ak :: post) stride = none) :
    (setAttributes enabled0 (pre ++ ak :: post) stride maxVA debug).error =
      some (.incompatibleTypeInterp msg) ∧
    (setAttributes enabled0 (pre ++ ak :: post) stride maxVA debug).enabled =
      pre.map VertexAttribute.index ++ [ak.index] ∧
    ∀ i ∈ pre.map VertexAttribute.index ++ [ak.index],
      GLCall.enableVertexAttribArray i ∈
        (setAttributes enabled0 (pre ++ ak :: post) stride maxVA debug).trace := by
  have hstep : attribLoop stride maxVA (pre ++ ak :: post) [] (preTrace enabled0) =
      ⟨some (.incompatibleTypeInterp msg),
        pre.map VertexAttribute.index ++ [ak.index],
        preTrace enabled0 ++ okTrace stride pre ++
          [GLCall.enableVertexAttribArray ak.index]⟩ := by
    rw [attribLoop_append stride maxVA pre (ak :: post) [] (preTrace enabled0) hpre]
    simp only [attribLoop]
    rw [if_neg (by omega), if_neg (by omega), if_neg (by omega), hbad]
    simp
  have hset : setAttributes enabled0 (pre ++ ak :: post) stride maxVA debug =
      ⟨some (.incompatibleTypeInterp msg),
        pre.map VertexAttribute.index ++ [ak.index],
        preTrace enabled0 ++ okTrace stride pre ++
          [GLCall.enableVertexAttribArray ak.index]⟩ := by
    unfold setAttributes
    rw [if_neg (by omega), if_neg (by omega), if_neg (by omega)]
    cases debug with
    | false => exact hstep
    | true =>
      rw [hdbg rfl]
      exact hstep
  rw [hset]
  refine ⟨rfl, rfl, ?_⟩
  intro i hi
  rcases List.mem_append.mp hi with hi | hi
  · obtain ⟨a, ha, rfl⟩ := List.mem_map.mp hi
    exact List.mem_append_left _
      (List.mem_append_right _ (okTrace_enable_mem stride pre a ha))
  · have : i = ak.index := by simpa using hi
    subst this
    exact List.mem_append_right _ (by simp)

/-- Witness for C6: one valid descriptor followed by a descriptor whose
`(Float, Integer)` combination is rejected, release build. -/
theorem setAttributes_no_rollback_witness :
    (setAttributes [] ([⟨0, 3, .Float, .Float, false, 0⟩] ++
        ⟨1, 1, .Float, .Integer, false, 12⟩ :: []) 16 16 false).error =
      some (.incompatibleTypeInterp
        "Cannot use type Float with Integer interpretation!") ∧
    (setAttributes [] ([⟨0, 3, .Float, .Float, false, 0⟩] ++
        ⟨1, 1, .Float, .Integer, false, 12⟩ :: []) 16 16 false).enabled =
      [(⟨0, 3, .Float, .Float, false, 0⟩ : VertexAttribute)].map
        VertexAttribute.index ++ [1] ∧
    ∀ i ∈ [(⟨0, 3, .Float, .Float, false, 0⟩ : VertexAttribute)].map
        VertexAttribute.index ++ [1],
      GLCall.enableVertexAttribArray i ∈
        (setAttributes [] ([⟨0, 3, .Float, .Float, false, 0⟩] ++
          ⟨1, 1, .Float, .Integer, false, 12⟩ :: []) 16 16 false).trace :=
  setAttributes_no_rollback [] [⟨0, 3, .Float, .Float, false, 0⟩] []
    ⟨1, 1, .Float, .Integer, false, 12⟩ 16 16 false
    "Cannot use type Float with Integer interpretation!"
    (by decide) (by decide) (by decide) (by decide) (by decide) (by decide)
    (by decide) (by decide) (by decide) (fun h => by simp at h)

/-- Claim C5: in a debug build (layout and limit otherwise acceptable, all
offsets within `int` range and non-negative, component counts in range),
the integrity pass behaves as specified, reading the two failure clauses
each in isolation: a descriptor exceeding the stride in an otherwise
disjoint layout yields the invalid-argument "exceeds stride" failure; an
overlapping pair in a layout where every descriptor fits the stride yields
the invalid-argument overlap failure naming two genuinely overlapping
positions (the hypothesis is symmetric in the pair, so detection does not
depend on descriptor order); and a layout with neither violation passes the
integrity pass without failure. -/
theorem setAttributes_debug_integrity_pass
    (enabled0 : List Nat) (attribs : List VertexAttribute) (stride maxVA : Int)
    (hstride : 0 < stride) (hstride31 : stride < 2 ^ 31)
    (hmax : 0 ≤ maxVA) (hcount : (attribs.length : Int) ≤ maxVA)
    (hoff : ∀ a ∈ attribs, 0 ≤ a.offset ∧ a.offset < 2 ^ 31)
    (hnc : ∀ a ∈ attribs, 1 ≤ a.numComponents ∧ a.numComponents ≤ 4) :
    ((attribs.Pairwise rangesDisjoint ∧
        ∃ a ∈ attribs, stride < a.offset + attribSize a) →
      (setAttributes enabled0 attribs stride maxVA true).error =
        some .attribsExceedStride ∧
      GlaError.attribsExceedStride.isInvalidArgument = true) ∧
    (((∀ a ∈ attribs, a.offset + attribSize a ≤ stride) ∧
        ∃ p q, ∃ (hp : p < attribs.length) (hq : q < attribs.length),
          p ≠ q ∧ rangesOverlap attribs[p] attribs[q]) →
      ∃ p q, (setAttributes enabled0 attribs stride maxVA true).error =
          some (.attribsOverlap p q) ∧
        (GlaError.attribsOverlap p q).isInvalidArgument = true ∧
        ∃ (hp : p < attribs.length) (hq : q < attribs.length),
          p ≠ q ∧ rangesOverlap attribs[p] attribs[q]) ∧
    (((∀ a ∈ attribs, a.offset + attribSize a ≤ stride) ∧
        attribs.Pairwise rangesDisjoint) →
      integrityCheck attribs stride = none) := by
  refine ⟨?_, ?_, ?_⟩
  · rintro ⟨hdisj, a, hamem, hex⟩
    have hic : integrityCheck attribs stride = some .attribsExceedStride := by
      unfold integrityCheck
      apply integrityLoop_exceed stride attribs attribs 0
      · exact scans_none_of_disjoint attribs hoff hnc hdisj
      · obtain ⟨k, hk, hak⟩ := List.mem_iff_getElem.mp hamem
        obtain ⟨hs1, hs2⟩ := attribSize_bounds a (hnc _ hamem).1 (hnc _ hamem).2
        obtain ⟨ho1, ho2⟩ := hoff _ hamem
        refine ⟨k, hk, ?_⟩
        rw [hak, attribEndU, uiCast_of_nonneg _ (by omega) (by omega),
          uiCast_of_nonneg stride (by omega) (by omega)]
        omega
    rw [setAttributes_integrity_err enabled0 attribs stride maxVA _
      hstride hmax hcount hic]
    exact ⟨rfl, rfl⟩
  · rintro ⟨hfit2, p, q, hp, hq, hpq, hov⟩
    have hnone : integrityCheck attribs stride ≠ none := by
      rcases le_or_lt attribs[p].offset attribs[q].offset with hle | hlt
      · exact integrityCheck_hit attribs stride p q hp hq hpq
          (hoff _ (List.getElem_mem hp)).1 (hoff _ (List.getElem_mem hp)).2
          (hoff _ (List.getElem_mem hq)).1
          (hnc _ (List.getElem_mem hp)).1 (hnc _ (List.getElem_mem hp)).2
          hle hov.2
      · exact integrityCheck_hit attribs stride q p hq hp (Ne.symm hpq)
          (hoff _ (List.getElem_mem hq)).1 (hoff _ (List.getElem_mem hq)).2
          (hoff _ (List.getElem_mem hp)).1
          (hnc _ (List.getElem_mem hq)).1 (hnc _ (List.getElem_mem hq)).2
          (le_of_lt hlt) hov.1
    cases hic : integrityCheck attribs stride with
    | none => exact absurd hic hnone
    | some e =>
      rcases integrityLoop_some stride attribs attribs 0 e hic with
        ⟨he, k, hk, hgt⟩ | ⟨p2, q2, he, k, hk, hp2, hfind⟩
      · exfalso
        have hkmem := List.getElem_mem hk
        obtain ⟨hs1, hs2⟩ := attribSize_bounds attribs[k] (hnc _ hkmem).1 (hnc _ hkmem).2
        obtain ⟨ho1, ho2⟩ := hoff _ hkmem
        have hf := hfit2 _ hkmem
        rw [attribEndU, uiCast_of_nonneg _ (by omega) (by omega),
          uiCast_of_nonneg stride (by omega) (by omega)] at hgt
        omega
      · obtain ⟨m, hm, hq2, hneq, hle2, hgt2⟩ :=
          findOverlapJ_some _ _ _ attribs 0 q2 hfind
        simp only [Nat.zero_add] at hp2 hq2
        subst hp2
        subst hq2
        refine ⟨p2, q2, ?_, rfl, hk, hm, hneq, ?_⟩
        · rw [setAttributes_integrity_err enabled0 attribs stride maxVA _
            hstride hmax hcount hic, he]
        · have hkmem := List.getElem_mem hk
          have hmmem := List.getElem_mem hm
          obtain ⟨hs1, hs2⟩ := attribSize_bounds attribs[p2] (hnc _ hkmem).1 (hnc _ hkmem).2
          obtain ⟨hsm1, hsm2⟩ := attribSize_bounds attribs[q2] (hnc _ hmmem).1 (hnc _ hmmem).2
          obtain ⟨hok1, hok2⟩ := hoff _ hkmem
          obtain ⟨hom1, hom2⟩ := hoff _ hmmem
          rw [attribEndU, uiCast_of_nonneg _ (by omega) (by omega),
            uiCast_of_nonneg _ hom1 (by omega)] at hgt2
          exact ⟨by omega, by omega⟩
  · rintro ⟨hfit2, hdisj⟩
    exact integrityCheck_none_of_valid attribs stride hstride hstride31
      (fun a ha => (hoff a ha).1) hnc hfit2 hdisj

/-- Witness for C5: one four-component float descriptor needs 16 bytes at
stride 12, debug build. -/
theorem setAttributes_debug_integrity_pass_witness :
    (setAttributes [] [⟨0, 4, .Float, .Float, false, 0⟩] 12 16 true).error =
      some .attribsExceedStride ∧
    GlaError.attribsExceedStride.isInvalidArgument = true :=
  (setAttributes_debug_integrity_pass [] [⟨0, 4, .Float, .Float, false, 0⟩] 12 16
    (by decide) (by decide) (by decide) (by decide) (by decide) (by decide)).1
    ⟨by decide, by decide⟩

/-- Claim C10: in a debug build, a descriptor whose offset is negative
enough that `offset + scalarSize(type) * numComponents` is negative makes
`setAttributes` fail with the "bigger than the stride" invalid-argument
error of the integrity pass — not with the dedicated negative-offset error
— because the signed sum is converted to `size_t` (becoming enormous)
before the comparison with the stride, and the integrity pass runs before
the per-descriptor `offset < 0` check.  The surrounding descriptors are
assumed unobjectionable so that no other integrity failure fires first. -/
theorem negative_offset_masked_by_integrity_pass
    (enabled0 : List Nat) (pre post : List VertexAttribute) (ak : VertexAttribute)
    (stride maxVA : Int)
    (hstride : 0 < stride) (hstride31 : stride < 2 ^ 31)
    (hmax : 0 ≤ maxVA) (hcount : ((pre ++ ak :: post).length : Int) ≤ maxVA)
    (hoffk : ak.offset < 0)
    (hneg : ak.offset + attribSize ak < 0)
    (hlow : -(2 ^ 63) ≤ ak.offset + attribSize ak)
    (hall : ∀ a ∈ pre ++ post, 0 ≤ a.offset ∧ a.offset < 2 ^ 31 ∧
      1 ≤ a.numComponents ∧ a.numComponents ≤ 4)
    (hfit : ∀ a ∈ pre, a.offset + attribSize a ≤ stride)
    (hdisj : (pre ++ post).Pairwise rangesDisjoint) :
    (setAttributes enabled0 (pre ++ ak :: post) stride maxVA true).error =
      some .attribsExceedStride := by
  have hpre_pair : pre.Pairwise rangesDisjoint := (List.pairwise_append.mp hdisj).1
  have hcross : ∀ a ∈ pre, ∀ b ∈ post, rangesDisjoint a b :=
    (List.pairwise_append.mp hdisj).2.2
  have hclean : ∀ k (hk : k < pre.length),
      attribEndU pre[k] ≤ uiCast stride ∧
      findOverlapJ pre[k].offset (attribEndU pre[k]) (0 + k) 0
        (pre ++ ak :: post) = none := by
    intro k hk
    have hkmem : pre[k] ∈ pre := List.getElem_mem hk
    obtain ⟨hk0, hk31, hknc1, hknc2⟩ := hall _ (List.mem_append_left _ hkmem)
    obtain ⟨hks1, hks2⟩ := attribSize_bounds pre[k] hknc1 hknc2
    have hkfit := hfit _ hkmem
    constructor
    · rw [attribEndU, uiCast_of_nonneg _ (by omega) (by omega),
        uiCast_of_nonneg stride (by omega) (by omega)]
      omega
    · rw [findOverlapJ_none_iff]
      intro j hj
      simp only [Nat.zero_add]
      rintro ⟨hne, hle, hgt⟩
      have hjlen : j < pre.length + 1 + post.length := by
        simp only [List.length_append, List.length_cons] at hj
        omega
      rcases Nat.lt_trichotomy j pre.length with hjlt | hjeq | hjgt
      · have hget : (pre ++ ak :: post)[j] = pre[j] := List.getElem_append_left hjlt
        rw [hget] at hle hgt
        have hjmem : pre[j] ∈ pre := List.getElem_mem hjlt
        obtain ⟨hj0, hj31, hjnc1, hjnc2⟩ := hall _ (List.mem_append_left _ hjmem)
        obtain ⟨hjs1, hjs2⟩ := attribSize_bounds pre[j] hjnc1 hjnc2
        rw [attribEndU, uiCast_of_nonneg _ (by omega) (by omega),
          uiCast_of_nonneg _ hj0 (by omega)] at hgt
        rcases pairwise_disjoint_get hpre_pair k j hk hjlt hne with hd | hd <;> omega
      · subst hjeq
        rw [getElem_append_mid pre post ak hj] at hle
        omega
      · obtain ⟨m, rfl⟩ : ∃ m, j = pre.length + 1 + m :=
          ⟨j - pre.length - 1, by omega⟩
        have hmlen : m < post.length := by omega
        rw [getElem_append_cons pre post ak m hmlen hj] at hle hgt
        have hjmem : post[m] ∈ post := List.getElem_mem hmlen
        obtain ⟨hj0, hj31, hjnc1, hjnc2⟩ := hall _ (List.mem_append_right _ hjmem)
        obtain ⟨hjs1, hjs2⟩ := attribSize_bounds post[m] hjnc1 hjnc2
        rw [attribEndU, uiCast_of_nonneg _ (by omega) (by omega),
          uiCast_of_nonneg _ hj0 (by omega)] at hgt
        rcases hcross _ hkmem _ hjmem with hd | hd <;> omega
  have hic : integrityCheck (pre ++ ak :: post) stride = some .attribsExceedStride := by
    unfold integrityCheck
    rw [integrityLoop_skip stride (pre ++ ak :: post) pre (ak :: post) 0 hclean]
    simp only [integrityLoop]
    have hpos : attribEndU ak > uiCast stride := by
      rw [attribEndU, uiCast_of_nonneg stride (by omega) (by omega)]
      unfold uiCast
      omega
    rw [if_pos hpos]
  rw [setAttributes_integrity_err enabled0 (pre ++ ak :: post) stride maxVA _
    hstride hmax hcount hic]

/-- Witness for C10: a single float descriptor with offset -100 at stride
16 in the debug build is reported as exceeding the stride. -/
theorem negative_offset_masked_witness :
    (setAttributes [] ([] ++ ⟨0, 3, .Float, .Float, false, -100⟩ :: []) 16 16
      true).error = some .attribsExceedStride :=
  negative_offset_masked_by_integrity_pass [] [] []
    ⟨0, 3, .Float, .Float, false, -100⟩ 16 16
    (by decide) (by decide) (by decide) (by decide) (by decide) (by decide)
    (by decide) (by decide) (by decide) (by decide)

end Gla
